import Mathlib

/-!
Verification of the OS X key-state core of synergy (OSXKeyState).

The repository ships the interface `src/lib/platform/OSXKeyState.h`; the
method bodies live outside the packaged sources.  Following the interface
doc comments and the specification, the definitions below are a shallow
embedding of the data model and the operations: canonical and native
modifier masks are `Nat` bitmasks, `KeyID` is a `Nat` (0 is `kKeyNone`),
the canonical key map is an association list keyed by
(button, canonical mask, group), and the Uchr layout decoder is a pure
function over a structured view of the layout blob.
-/

namespace OSXKeyState

/-- Canonical KeyID for "no key". -/
def kKeyNone : Nat := 0

/-- Canonical modifier bit for shift. -/
def KeyModifierShift : Nat := 1

/-- Canonical modifier bit for control. -/
def KeyModifierControl : Nat := 2

/-- Canonical modifier bit for alt. -/
def KeyModifierAlt : Nat := 4

/-- Canonical modifier bit for super (the command-style modifier). -/
def KeyModifierSuper : Nat := 8

/-- Canonical modifier bit for caps lock. -/
def KeyModifierCapsLock : Nat := 16

/-- Canonical modifier bit for AltGr. -/
def KeyModifierAltGr : Nat := 32

/-- Native (Carbon-style) modifier bit for the command key. -/
def nativeSuper : Nat := 0x100

/-- Native modifier bit for shift. -/
def nativeShift : Nat := 0x200

/-- Native modifier bit for caps lock. -/
def nativeCaps : Nat := 0x400

/-- Native modifier bit for option (alt). -/
def nativeAlt : Nat := 0x800

/-- Native modifier bit for control. -/
def nativeControl : Nat := 0x1000

/-- Native modifier bit for right option, the AltGr-equivalent role. -/
def nativeAltGr : Nat := 0x4000

/-- Modelled from the spec: the body of `mapModifiersToCarbon` is not in
the packaged sources.  Converts a canonical modifier mask to the native
bit encoding, role by role (spec section 3: the native mask is the
platform's own bit encoding, confined to this boundary). -/
def mapModifiersToCarbon (m : Nat) : Nat :=
  (if m.testBit 0 then nativeShift else 0) +
  (if m.testBit 1 then nativeControl else 0) +
  (if m.testBit 2 then nativeAlt else 0) +
  (if m.testBit 3 then nativeSuper else 0) +
  (if m.testBit 4 then nativeCaps else 0) +
  (if m.testBit 5 then nativeAltGr else 0)

/-- Modelled from the spec: the body of `mapModifiersFromOSX` is not in
the packaged sources.  Converts a native modifier mask to the canonical
bit encoding, the inverse translation of `mapModifiersToCarbon`. -/
def mapModifiersFromOSX (n : Nat) : Nat :=
  (if n.testBit 9 then KeyModifierShift else 0) +
  (if n.testBit 12 then KeyModifierControl else 0) +
  (if n.testBit 11 then KeyModifierAlt else 0) +
  (if n.testBit 8 then KeyModifierSuper else 0) +
  (if n.testBit 10 then KeyModifierCapsLock else 0) +
  (if n.testBit 14 then KeyModifierAltGr else 0)

/-- The reserved button offset from the header: OS X uses physical key 0
for the A key, synergy reserves KeyButton 0, so native ids are offset by
this much. -/
def KeyButtonOffset : Nat := 1

/-- Modelled from the spec: the body of `mapVirtualKeyToKeyButton` is not
in the packaged sources; the header comment says it simply remaps the ids
so KeyButton 0 is never used. -/
def mapVirtualKeyToKeyButton (keyCode : Nat) : Nat :=
  keyCode + KeyButtonOffset

/-- Modelled from the spec: the body of `mapKeyButtonToVirtualKey` is not
in the packaged sources; the header comment says it is the inverse of
`mapVirtualKeyToKeyButton`. -/
def mapKeyButtonToVirtualKey (keyButton : Nat) : Nat :=
  keyButton - KeyButtonOffset

/-- KeyID designated for the left shift key (in the named-key range). -/
def kKeyShift_L : Nat := 0xEFE1

/-- KeyID designated for the left control key. -/
def kKeyControl_L : Nat := 0xEFE3

/-- KeyID designated for the left alt key. -/
def kKeyAlt_L : Nat := 0xEFE9

/-- KeyID designated for the left super key. -/
def kKeySuper_L : Nat := 0xEFEB

/-- KeyID designated for the caps-lock key. -/
def kKeyCapsLock : Nat := 0xEFE5

/-- The fixed role order used by the modifier tracker: shift, control,
alt, super, caps, each paired with its designated KeyID. -/
def modifierRoles : List (Nat × Nat) :=
  [(KeyModifierShift, kKeyShift_L),
   (KeyModifierControl, kKeyControl_L),
   (KeyModifierAlt, kKeyAlt_L),
   (KeyModifierSuper, kKeySuper_L),
   (KeyModifierCapsLock, kKeyCapsLock)]

/-- One synthetic key event: the modifier's designated KeyID and the
direction (true = press, false = release). -/
structure Keystroke where
  id : Nat
  down : Bool
deriving DecidableEq

/-- Modelled from the spec: the body of `handleModifierKey` is not in the
packaged sources.  Sends one synthetic event for the given modifier key;
the direction is taken from the bit in the new mask. -/
def handleModifierKey (newMask bit id : Nat) : Keystroke :=
  ⟨id, newMask &&& bit != 0⟩

/-- Modelled from the spec: the body of `handleModifierKeys` is not in the
packaged sources.  Determines which modifier keys have changed between the
two masks and emits one event per changed role, in the fixed role order;
the stored state afterwards is the new mask (spec section 4.4). -/
def handleModifierKeys (oldMask newMask : Nat) : List Keystroke × Nat :=
  (modifierRoles.filterMap fun r =>
      if oldMask &&& r.1 == newMask &&& r.1 then none
      else some (handleModifierKey newMask r.1 r.2),
   newMask)

/-- Modelled from the spec: the body of `KeyResource::unicharToKeyID` is
not in the packaged sources.  Converts a Unicode scalar to the equivalent
KeyID; a genuinely unmappable input (the NUL scalar) yields no key. -/
def unicharToKeyID (c : Nat) : Nat :=
  if c == 0 then kKeyNone else c

/-- Modelled from the spec: the body of `KeyResource::getKeyID` is not in
the packaged sources.  Legacy single-byte-script-to-KeyID conversion. -/
def getKeyID (c : Nat) : Nat :=
  unicharToKeyID (c % 256)

/-- One raw output code of a (table, button) cell of a Uchr layout: a
direct character, a reference into the sequence data, a dead-key
reference into the state records, or an invalid/unused slot. -/
inductive RawCode where
  | invalid : RawCode
  | char (c : Nat) : RawCode
  | seqRef (i : Nat) : RawCode
  | deadKeyRef (i : Nat) : RawCode
deriving DecidableEq

/-- One dead-key state record: the character produced when the chain
terminates at this record, and the next state-record index (0 means this
record is a terminator). -/
structure StateRecord where
  output : Nat
  next : Nat
deriving DecidableEq

/-- Expected header format tag of a Uchr layout blob. -/
def kUCKeyLayoutHeaderFormat : Nat := 0x1002

/-- Structured view of one native layout blob: header fields followed by
the modifier-to-table map, the character tables, the dead-key state
records and the sequence data. -/
structure UchrBlob where
  headerFormat : Nat
  declaredSize : Nat
  actualSize : Nat
  numButtons : Nat
  modTable : List Nat
  tables : List (List RawCode)
  stateRecords : List StateRecord
  sequences : List (List Nat)
deriving DecidableEq

/-- Modelled from the spec: header/size validation of a layout blob
(spec section 4.2 step 1). -/
def UchrBlob.headerOk (b : UchrBlob) : Prop :=
  b.headerFormat = kUCKeyLayoutHeaderFormat ∧ b.declaredSize = b.actualSize

instance (b : UchrBlob) : Decidable b.headerOk := by
  unfold UchrBlob.headerOk; infer_instance

/-- The decoded resource view over one layout blob. -/
structure UchrKeyResource where
  valid : Bool
  numButtons : Nat
  modTable : List Nat
  tables : List (List RawCode)
  stateRecords : List StateRecord
  sequences : List (List Nat)
deriving DecidableEq

/-- Modelled from the spec: the `UchrKeyResource` constructor is not in
the packaged sources.  Validates the blob header/size; if malformed the
resource is marked invalid and carries no tables. -/
def UchrKeyResource.make (b : UchrBlob) : UchrKeyResource :=
  if b.headerOk then
    ⟨true, b.numButtons, b.modTable, b.tables, b.stateRecords, b.sequences⟩
  else
    ⟨false, 0, [], [], [], []⟩

/-- Reports whether the underlying blob was structurally well-formed. -/
def UchrKeyResource.isValid (r : UchrKeyResource) : Bool :=
  r.valid

/-- Number of modifier-combination slots; 0 on an invalid resource. -/
def UchrKeyResource.getNumModifierCombinations (r : UchrKeyResource) : Nat :=
  if r.valid then r.modTable.length else 0

/-- Number of output tables; 0 on an invalid resource. -/
def UchrKeyResource.getNumTables (r : UchrKeyResource) : Nat :=
  if r.valid then r.tables.length else 0

/-- Number of physical buttons per table; 0 on an invalid resource. -/
def UchrKeyResource.getNumButtons (r : UchrKeyResource) : Nat :=
  if r.valid then r.numButtons else 0

/-- Modelled from the spec: maps a native modifier combination to the
output-table index to use; distinct combinations may collapse to the same
table.  No-op (0) on an invalid resource. -/
def UchrKeyResource.getTableForModifier (r : UchrKeyResource) (mask : Nat) : Nat :=
  if r.valid then r.modTable.getD mask 0 else 0

/-- Modelled from the spec: the dead-key state-record walk behind
`getDeadKey`/`getKeyRecord` (spec section 4.2 step 3).  The walk iterates
from a state-record index: a record whose next state is 0 is a
terminator and yields its output; a state absent from the table stops the
walk with no output; otherwise the walk transitions to the next state.
The fuel argument bounds the number of transitions; the second component
of the result counts the transitions actually taken. -/
def deadKeyChain (records : List StateRecord) : Nat → Nat → Option Nat × Nat
  | 0, _ => (none, 0)
  | fuel + 1, i =>
    match records.get? i with
    | none => (none, 0)
    | some rec =>
      if rec.next == 0 then (some rec.output, 0)
      else
        let p := deadKeyChain records fuel rec.next
        (p.1, p.2 + 1)

/-- Modelled from the spec: the body of `UchrKeyResource::getDeadKey` is
not in the packaged sources.  Resolves a dead-key reference by walking
the state records with fuel equal to the state-record count, so chains
are bounded by the table size.  Returns the resolved output (none for no
output) and the number of state transitions taken. -/
def UchrKeyResource.getDeadKey (r : UchrKeyResource) (index : Nat) : Option Nat × Nat :=
  deadKeyChain r.stateRecords r.stateRecords.length index

/-- Modelled from the spec: the body of `UchrKeyResource::addSequence` is
not in the packaged sources.  Looks up a sequence-data entry; an index
outside the sequence data is a structural inconsistency and yields no
output. -/
def UchrKeyResource.addSequence (r : UchrKeyResource) (i : Nat) : Option (List Nat) :=
  r.sequences.get? i

/-- Modelled from the spec: the body of `UchrKeyResource::getKey` is not
in the packaged sources.  Resolves one (table, button) cell to a KeyID:
a direct character converts via `unicharToKeyID`; a sequence reference
reads the sequence data (the interface returns a single KeyID, so only a
singleton sequence maps to a key); a dead-key reference walks the state
records; an invalid or structurally inconsistent cell degrades to
`kKeyNone` (no output).  All dead-key state is local to this resolution. -/
def UchrKeyResource.getKey (r : UchrKeyResource) (table button : Nat) : Nat :=
  if !r.valid then kKeyNone else
  match (r.tables.get? table).bind (fun t => t.get? button) with
  | none => kKeyNone
  | some RawCode.invalid => kKeyNone
  | some (RawCode.char c) => unicharToKeyID c
  | some (RawCode.seqRef i) =>
    match r.addSequence i with
    | some [c] => unicharToKeyID c
    | _ => kKeyNone
  | some (RawCode.deadKeyRef i) =>
    match (r.getDeadKey i).1 with
    | none => kKeyNone
    | some c => unicharToKeyID c

/-- Sequential decode of a list of (table, button) cells against one
resource, in order.  Each cell is resolved with `getKey`, whose dead-key
accumulator is created locally per cell. -/
def UchrKeyResource.decodeCells (r : UchrKeyResource) : List (Nat × Nat) → List Nat
  | [] => []
  | c :: rest => r.getKey c.1 c.2 :: r.decodeCells rest

/-- One entry of the canonical key map: the external button id, the
canonical modifier mask, the layout group, and the ordered KeyID
sequence produced. -/
structure KeyMapEntry where
  button : Nat
  mask : Nat
  group : Nat
  ids : List Nat
deriving DecidableEq

/-- The map key of an entry: (button, canonical mask, group). -/
def entryKey (e : KeyMapEntry) : Nat × Nat × Nat :=
  (e.button, e.mask, e.group)

/-- Structural invariant of a canonical key map (spec section 3): it is
keyed by (button, mask, group), so the key triples are distinct; every
stored external button id is at least 1; canonical masks use only the six
canonical role bits. -/
def keyMapWellFormed (km : List KeyMapEntry) : Prop :=
  (km.map entryKey).Nodup ∧ ∀ e ∈ km, e.mask < 64 ∧ 1 ≤ e.button

instance (km : List KeyMapEntry) : Decidable (keyMapWellFormed km) := by
  unfold keyMapWellFormed; infer_instance

/-- Forward lookup in the canonical key map by (button, mask, group). -/
def lookupEntry (km : List KeyMapEntry) (button mask group : Nat) :
    Option KeyMapEntry :=
  km.find? fun e => e.button == button && e.mask == mask && e.group == group

/-- A KeyID is a glyph key when it is a real key outside the named-key
range (the private range 0xE000 to 0xEFFF holds named non-glyph keys). -/
def isGlyphKeyID (id : Nat) : Bool :=
  id != kKeyNone && (decide (id < 0xE000) || decide (0xEFFF < id))

/-- Modelled from the spec: the body of `adjustAltGrModifier` is not in
the packaged sources.  Per the header comment: checks whether any id in
the sequence is a glyph key and whether no command modifier is active; if
so it adds the AltGr modifier to the mask and drops the super modifier,
so clients do not try to match the glyph-producing option key as a
command modifier. -/
def adjustAltGrModifier (ids : List Nat) (mask : Nat) (isCommand : Bool) : Nat :=
  if !isCommand && ids.any isGlyphKeyID then
    let m := mask ||| KeyModifierAltGr
    if m.testBit 3 then m ^^^ KeyModifierSuper else m
  else mask

/-- Modelled from the spec: the body of `mapKeyFromEvent` is not in the
packaged sources.  Converts a native key event (virtual key plus native
modifier mask) under a group into the KeyID sequence, the canonical
modifier mask in effect (after the AltGr adjustment), and the button id
of the key, or 0 when the button does not map to a known KeyID. -/
def mapKeyFromEvent (km : List KeyMapEntry) (group vk nmask : Nat) :
    List Nat × Nat × Nat :=
  let button := mapVirtualKeyToKeyButton vk
  let cmask := mapModifiersFromOSX nmask
  match lookupEntry km button cmask group with
  | some e =>
    if e.ids.isEmpty then ([], cmask, 0)
    else
      let isCommand := cmask &&& (KeyModifierControl ||| KeyModifierSuper) != 0
      (e.ids, adjustAltGrModifier e.ids cmask isCommand, button)
  | none => ([], cmask, 0)

/-- Modelled from the spec: the body of `mapSynergyHotKeyToMac` is not in
the packaged sources.  Searches the canonical key map in reverse for an
entry producing exactly the requested KeyID under the requested canonical
mask and group; on success yields the mac virtual key (the button id
minus the reserved offset) and the native modifier mask. -/
def mapSynergyHotKeyToMac (km : List KeyMapEntry) (group key mask : Nat) :
    Option (Nat × Nat) :=
  match km.find? (fun e => e.ids == [key] && e.mask == mask && e.group == group) with
  | some e => some (mapKeyButtonToVirtualKey e.button, mapModifiersToCarbon mask)
  | none => none

/-- Modelled from the spec: the data-driven pass of the key-map builder
(`getKeyMap(keyMap, group, r)`), whose body is not in the packaged
sources.  Walks all modifier combinations and buttons of a resource and
stores each produced KeyID under (button + offset, canonical mask,
group); cells with no output are skipped.  The native bits of a modifier
combination slot sit eight bits up in the native encoding. -/
def getKeyMapForGroup (r : UchrKeyResource) (group : Nat) : List KeyMapEntry :=
  (List.range r.getNumModifierCombinations).flatMap fun m =>
    let table := r.getTableForModifier m
    (List.range r.getNumButtons).filterMap fun btn =>
      let id := r.getKey table btn
      if id == kKeyNone then none
      else some ⟨btn + KeyButtonOffset, mapModifiersFromOSX (m <<< 8), group, [id]⟩

/-- Native virtual keys of the pure modifier keys with their designated
KeyIDs, for the hard-coded overlay of the key-map builder. -/
def specialKeyButtons : List (Nat × Nat) :=
  [(56, kKeyShift_L), (59, kKeyControl_L), (58, kKeyAlt_L),
   (55, kKeySuper_L), (57, kKeyCapsLock)]

/-- Modelled from the spec: the body of `getKeyMapForSpecialKeys` is not
in the packaged sources.  Hard-coded entries for keys the native table
does not describe as characters (the pure modifier keys). -/
def getKeyMapForSpecialKeys (group : Nat) : List KeyMapEntry :=
  specialKeyButtons.map fun p =>
    ⟨mapVirtualKeyToKeyButton p.1, 0, group, [p.2]⟩

/-- Modelled from the spec: the body of the outer `getKeyMap` is not in
the packaged sources.  Builds the full canonical key map from the layout
blobs of all installed groups: the data-driven pass per group followed by
the hard-coded overlay. -/
def getKeyMap (blobs : List UchrBlob) : List KeyMapEntry :=
  (blobs.zip (List.range blobs.length)).flatMap fun p =>
    getKeyMapForGroup (UchrKeyResource.make p.1) p.2 ++
      getKeyMapForSpecialKeys p.2

/-- A small well-formed layout blob used to exercise the decoder: two
buttons, two modifier combinations, a direct character, a dead-key
reference and a structurally inconsistent sequence reference. -/
def sampleBlob : UchrBlob :=
  { headerFormat := kUCKeyLayoutHeaderFormat
    declaredSize := 100
    actualSize := 100
    numButtons := 2
    modTable := [0, 1]
    tables := [[RawCode.char 97, RawCode.deadKeyRef 0],
               [RawCode.char 65, RawCode.seqRef 5]]
    stateRecords := [⟨233, 0⟩]
    sequences := [] }

/-- A malformed layout blob: wrong header tag and inconsistent sizes. -/
def badBlob : UchrBlob :=
  { headerFormat := 0
    declaredSize := 1
    actualSize := 2
    numButtons := 3
    modTable := [0]
    tables := [[RawCode.char 97]]
    stateRecords := []
    sequences := [] }

/-- A small well-formed canonical key map: button 19 (native key 18)
produces A under shift and a under no modifiers, in group 0 (the example
of spec section 8). -/
def sampleKeyMap : List KeyMapEntry :=
  [⟨19, 1, 0, [65]⟩, ⟨19, 0, 0, [97]⟩]

/-! Helper lemmas. -/

/-- The modifier-mask translations are mutually inverse on canonical
masks (which use only the six canonical role bits). -/
theorem mapModifiers_roundtrip :
    ∀ m < 64, mapModifiersFromOSX (mapModifiersToCarbon m) = m := by
  decide

/-- The dead-key walk takes at most as many state transitions as it has
fuel. -/
theorem deadKeyChain_steps_le (records : List StateRecord) :
    ∀ fuel i, (deadKeyChain records fuel i).2 ≤ fuel := by
  intro fuel
  induction fuel with
  | zero => intro i; simp [deadKeyChain]
  | succ k ih =>
    intro i
    simp only [deadKeyChain]
    cases records.get? i with
    | none => exact Nat.zero_le _
    | some rec =>
      by_cases hn : rec.next == 0
      · simp [hn]
      · simp only [hn, if_false, Bool.false_eq_true]
        exact Nat.succ_le_succ (ih rec.next)

/-- A filterMap whose function is an if-then-else between none and some
is the map of the filtered list. -/
theorem filterMap_if_eq_map_filter {α β : Type} (p : α → Bool) (g : α → β)
    (l : List α) :
    l.filterMap (fun x => if p x then none else some (g x)) =
      (l.filter fun x => !p x).map g := by
  induction l with
  | nil => rfl
  | cons a t ih => by_cases h : p a <;> simp [h, ih]

/-- No emitted modifier event carries an id outside the role list. -/
theorem emitted_filter_empty (n id : Nat) (p : Nat × Nat → Bool) :
    ∀ t : List (Nat × Nat), id ∉ t.map Prod.snd →
      ((t.filter p).map (fun r => handleModifierKey n r.1 r.2)).filter
        (fun k => k.id == id) = [] := by
  intro t
  induction t with
  | nil => intro _; rfl
  | cons a s ih =>
    intro h
    simp only [List.map_cons, List.mem_cons, not_or] at h
    have hbeq : ((handleModifierKey n a.1 a.2).id == id) = false :=
      beq_eq_false_iff_ne.mpr fun hc => h.1 hc.symm
    by_cases hp : p a
    · rw [List.filter_cons, if_pos hp, List.map_cons, List.filter_cons, hbeq]
      simpa using ih h.2
    · rw [List.filter_cons, if_neg hp]
      exact ih h.2

/-- In the emitted event list, a role's designated id occurs exactly once
when the role passes the filter and never otherwise, provided role ids
are distinct. -/
theorem emitted_count (n bit id : Nat) (p : Nat × Nat → Bool) :
    ∀ roles : List (Nat × Nat), (roles.map Prod.snd).Nodup →
      (bit, id) ∈ roles →
      (((roles.filter p).map (fun r => handleModifierKey n r.1 r.2)).filter
          (fun k => k.id == id)).length = if p (bit, id) then 1 else 0 := by
  intro roles
  induction roles with
  | nil => intro _ hmem; cases hmem
  | cons a t ih =>
    intro hnd hmem
    simp only [List.map_cons, List.nodup_cons] at hnd
    rcases List.mem_cons.mp hmem with ha | ht
    · subst ha
      have hid : id ∉ t.map Prod.snd := hnd.1
      have hzero := emitted_filter_empty n id p t hid
      by_cases hp : p (bit, id)
      · rw [List.filter_cons, if_pos hp, List.map_cons, List.filter_cons]
        have hbeq : ((handleModifierKey n bit id).id == id) = true :=
          beq_iff_eq.mpr rfl
        rw [hbeq, if_pos rfl, hp, if_pos rfl, hzero]
        rfl
      · rw [List.filter_cons, if_neg hp, hzero]
        simp [hp]
    · have hne : a.2 ≠ id := fun h =>
        hnd.1 (h ▸ List.mem_map_of_mem Prod.snd ht)
      have hrest := ih hnd.2 ht
      by_cases hp : p a
      · rw [List.filter_cons, if_pos hp, List.map_cons, List.filter_cons]
        have hbeq : ((handleModifierKey n a.1 a.2).id == id) = false :=
          beq_eq_false_iff_ne.mpr hne
        rw [hbeq]
        simpa using hrest
      · rw [List.filter_cons, if_neg hp]
        exact hrest

/-! Claim theorems. -/

/-- C6: for every native virtual key code, the external button id equals
the code plus the reserved offset (1), is never 0, and
`mapKeyButtonToVirtualKey` is the exact inverse of
`mapVirtualKeyToKeyButton`. -/
theorem virtual_key_button_offset_inverse (k : Nat) :
    mapVirtualKeyToKeyButton k = k + KeyButtonOffset ∧
    mapVirtualKeyToKeyButton k ≠ 0 ∧
    mapKeyButtonToVirtualKey (mapVirtualKeyToKeyButton k) = k := by
  refine ⟨rfl, ?_, ?_⟩ <;>
    simp [mapVirtualKeyToKeyButton, mapKeyButtonToVirtualKey, KeyButtonOffset]

/-- C2: reconciling oldMask to newMask emits exactly one synthetic event
per modifier role whose bit differs between the masks (press when the
bit is set in the new mask, release when it is clear), in the fixed role
order shift, control, alt, super, caps; equal masks emit no events; the
stored modifier state afterwards equals the new mask. -/
theorem handle_modifier_keys_minimal_diff (o n : Nat) :
    handleModifierKeys o n =
      (((modifierRoles.filter fun r => !(o &&& r.1 == n &&& r.1)).map
          fun r => handleModifierKey n r.1 r.2), n) ∧
    (o = n → (handleModifierKeys o n).1 = []) ∧
    (∀ bit id, (bit, id) ∈ modifierRoles →
      (((handleModifierKeys o n).1.filter fun k => k.id == id).length =
        if o &&& bit == n &&& bit then 0 else 1)) ∧
    (∀ k ∈ (handleModifierKeys o n).1, ∀ bit, (bit, k.id) ∈ modifierRoles →
      k.down = (n &&& bit != 0)) := by
  have heq : handleModifierKeys o n =
      (((modifierRoles.filter fun r => !(o &&& r.1 == n &&& r.1)).map
          fun r => handleModifierKey n r.1 r.2), n) := by
    unfold handleModifierKeys
    rw [filterMap_if_eq_map_filter]
  have hnd : (modifierRoles.map Prod.snd).Nodup := by decide
  refine ⟨heq, ?_, ?_, ?_⟩
  · intro h
    subst h
    simp [handleModifierKeys, modifierRoles]
  · intro bit id hmem
    rw [heq]
    have hc := emitted_count n bit id
      (fun r => !(o &&& r.1 == n &&& r.1)) modifierRoles hnd hmem
    rw [hc]
    cases h : (o &&& bit == n &&& bit) <;> simp [h]
  · intro k hk bit hmem
    rw [heq] at hk
    simp only [List.mem_map] at hk
    obtain ⟨r, hr, hkr⟩ := hk
    have hrroles : r ∈ modifierRoles := List.mem_of_mem_filter hr
    have hkid : k.id = r.2 := by rw [← hkr]; rfl
    have hpair : (bit, k.id) = r :=
      List.inj_on_of_nodup_map hnd hmem hrroles hkid
    have hbit : bit = r.1 := by rw [← hpair]
    rw [← hkr, hbit]
    rfl

/-- Witness for C2: equal masks emit nothing; the alt-bit transition
from mask 5 to mask 1 emits exactly one alt event. -/
theorem handle_modifier_keys_minimal_diff_witness :
    (handleModifierKeys 3 3).1 = [] ∧
    ((handleModifierKeys 5 1).1.filter fun k => k.id == kKeyAlt_L).length
      = 1 :=
  ⟨(handle_modifier_keys_minimal_diff 3 3).2.1 rfl,
   ((handle_modifier_keys_minimal_diff 5 1).2.2.1 4 kKeyAlt_L
      (by decide)).trans (by decide)⟩

/-- C3: resolving a dead-key reference walks the state records for at
most K state transitions, where K is the number of state records of the
table; the walk stops at a terminator or at a state absent from the
table and never loops unboundedly. -/
theorem dead_key_resolution_bounded (r : UchrKeyResource) (index : Nat) :
    (r.getDeadKey index).2 ≤ r.stateRecords.length :=
  deadKeyChain_steps_le r.stateRecords r.stateRecords.length index

/-- C7: dead-key decoding state is local to one cell resolution: in a
sequential decode of many cells, every cell's result is exactly its own
`getKey` value, unaffected by the decodes before or after it. -/
theorem decode_cells_no_interference (r : UchrKeyResource)
    (l1 l2 : List (Nat × Nat)) (t b : Nat) :
    r.decodeCells (l1 ++ (t, b) :: l2) =
      r.decodeCells l1 ++ r.getKey t b :: r.decodeCells l2 := by
  induction l1 with
  | nil => rfl
  | cons c rest ih => simp [UchrKeyResource.decodeCells, ih]

/-- C5: on a glyph-producing sequence with the super (command-style)
bit held and no AltGr bit in the incoming mask, the AltGr adjustment
yields a mask carrying the canonical AltGr bit (bit 5) and not the super
bit (bit 3) when no command modifier is active, and leaves the mask
carrying super and not AltGr when a command modifier is active. -/
theorem adjust_altgr_disambiguation (ids : List Nat) (mask : Nat)
    (isCommand : Bool) (hg : ids.any isGlyphKeyID = true)
    (hs : mask.testBit 3 = true) (ha : mask.testBit 5 = false) :
    (isCommand = false →
      ((adjustAltGrModifier ids mask isCommand).testBit 5 = true ∧
       (adjustAltGrModifier ids mask isCommand).testBit 3 = false)) ∧
    (isCommand = true →
      ((adjustAltGrModifier ids mask isCommand).testBit 3 = true ∧
       (adjustAltGrModifier ids mask isCommand).testBit 5 = false)) := by
  have c1 : Nat.testBit KeyModifierAltGr 5 = true := by decide
  have c2 : Nat.testBit KeyModifierAltGr 3 = false := by decide
  have c3 : Nat.testBit KeyModifierSuper 5 = false := by decide
  have c4 : Nat.testBit KeyModifierSuper 3 = true := by decide
  cases isCommand
  · have hm3 : (mask ||| KeyModifierAltGr).testBit 3 = true := by
      rw [Nat.testBit_or, hs]; rfl
    have hval : adjustAltGrModifier ids mask false =
        (mask ||| KeyModifierAltGr) ^^^ KeyModifierSuper := by
      simp [adjustAltGrModifier, hg, hm3]
    refine ⟨fun _ => ⟨?_, ?_⟩, fun h => nomatch h⟩
    · rw [hval, Nat.testBit_xor, Nat.testBit_or, ha, c1, c3]; rfl
    · rw [hval, Nat.testBit_xor, Nat.testBit_or, hs, c2, c4]; rfl
  · have hval : adjustAltGrModifier ids mask true = mask := by
      simp [adjustAltGrModifier]
    refine ⟨fun h => (nomatch h), fun _ => ⟨?_, ?_⟩⟩
    · rw [hval]; exact hs
    · rw [hval]; exact ha

/-- Witness for C5 on a concrete glyph sequence and mask 8 (super held,
AltGr clear), in both the plain and the command-modifier case. -/
theorem adjust_altgr_disambiguation_witness :
    ((adjustAltGrModifier [233] 8 false).testBit 5 = true ∧
     (adjustAltGrModifier [233] 8 false).testBit 3 = false) ∧
    ((adjustAltGrModifier [233] 8 true).testBit 3 = true ∧
     (adjustAltGrModifier [233] 8 true).testBit 5 = false) :=
  ⟨(adjust_altgr_disambiguation [233] 8 false (by decide) (by decide)
      (by decide)).1 rfl,
   (adjust_altgr_disambiguation [233] 8 true (by decide) (by decide)
      (by decide)).2 rfl⟩

/-- C4: a malformed layout blob yields a resource that reports invalid
and all of whose calls return an empty or no-op result; on a valid
resource a structurally inconsistent cell (a sequence reference outside
the sequence data) degrades to no output, while a plain character cell
remains usable. -/
theorem malformed_layout_degrades (b : UchrBlob) (hb : ¬ b.headerOk) :
    ((UchrKeyResource.make b).isValid = false ∧
     (UchrKeyResource.make b).getNumModifierCombinations = 0 ∧
     (UchrKeyResource.make b).getNumTables = 0 ∧
     (UchrKeyResource.make b).getNumButtons = 0 ∧
     (∀ m, (UchrKeyResource.make b).getTableForModifier m = 0) ∧
     (∀ t btn, (UchrKeyResource.make b).getKey t btn = kKeyNone)) ∧
    (∀ r : UchrKeyResource, r.valid = true → ∀ t btn,
      (∀ i, (r.tables.get? t).bind (fun tb => tb.get? btn) =
          some (RawCode.seqRef i) → r.sequences.get? i = none →
          r.getKey t btn = kKeyNone) ∧
      (∀ c, (r.tables.get? t).bind (fun tb => tb.get? btn) =
          some (RawCode.char c) → c ≠ 0 → r.getKey t btn = c)) := by
  have hmk : UchrKeyResource.make b = ⟨false, 0, [], [], [], []⟩ := by
    simp [UchrKeyResource.make, hb]
  constructor
  · rw [hmk]
    exact ⟨rfl, rfl, rfl, rfl, fun m => rfl, fun t btn => rfl⟩
  · intro r hv t btn
    constructor
    · intro i hcell hseq
      simp only [List.get?_eq_getElem?] at hcell hseq
      simp [UchrKeyResource.getKey, hv, hcell, UchrKeyResource.addSequence,
        hseq]
    · intro c hcell hc
      simp only [List.get?_eq_getElem?] at hcell
      simp [UchrKeyResource.getKey, hv, hcell, unicharToKeyID, hc, kKeyNone]

/-- Witness for C4: the malformed blob gives an invalid, silent
resource; on the valid sample resource the inconsistent cell (1,1)
degrades to no output while cell (0,0) still produces its character. -/
theorem malformed_layout_degrades_witness :
    (UchrKeyResource.make badBlob).isValid = false ∧
    (UchrKeyResource.make badBlob).getKey 0 0 = kKeyNone ∧
    (UchrKeyResource.make sampleBlob).getKey 1 1 = kKeyNone ∧
    (UchrKeyResource.make sampleBlob).getKey 0 0 = 97 := by
  have h1 := malformed_layout_degrades badBlob (by decide)
  refine ⟨h1.1.1, h1.1.2.2.2.2.2 0 0, ?_, ?_⟩
  · exact (h1.2 (UchrKeyResource.make sampleBlob) (by decide) 1 1).1 5
      (by decide) (by decide)
  · exact (h1.2 (UchrKeyResource.make sampleBlob) (by decide) 0 0).2 97
      (by decide) (by decide)

/-- C8: building the canonical key map is deterministic: two runs over
the same layout blobs yield identical maps, with no dependence on hidden
state. -/
theorem key_map_build_deterministic (b1 b2 : List UchrBlob) (h : b1 = b2) :
    getKeyMap b1 = getKeyMap b2 := by
  rw [h]

/-- Witness for C8 at a concrete blob list. -/
theorem key_map_build_deterministic_witness :
    getKeyMap [sampleBlob, badBlob] = getKeyMap [sampleBlob, badBlob] :=
  key_map_build_deterministic [sampleBlob, badBlob] [sampleBlob, badBlob] rfl

/-- On a well-formed canonical key map, a successful reverse lookup of
(key, mask) yields a native pair whose forward mapping produces exactly
that single KeyID again. -/
theorem hotkey_some_forward (km : List KeyMapEntry)
    (hw : keyMapWellFormed km) (group key mask vk nm : Nat)
    (h : mapSynergyHotKeyToMac km group key mask = some (vk, nm)) :
    (mapKeyFromEvent km group vk nm).1 = [key] := by
  unfold mapSynergyHotKeyToMac at h
  cases hf : km.find?
      (fun e => e.ids == [key] && e.mask == mask && e.group == group) with
  | none => rw [hf] at h; cases h
  | some e =>
    rw [hf] at h
    have hpe := List.find?_some hf
    have hme := List.mem_of_find?_eq_some hf
    simp only [Bool.and_eq_true, beq_iff_eq] at hpe
    obtain ⟨⟨hids, hmask⟩, hgroup⟩ := hpe
    injection h with h2
    have hvk : mapKeyButtonToVirtualKey e.button = vk := congrArg Prod.fst h2
    have hnm : mapModifiersToCarbon mask = nm := congrArg Prod.snd h2
    obtain ⟨hm64, hb1⟩ := hw.2 e hme
    have hbtn : mapVirtualKeyToKeyButton vk = e.button := by
      rw [← hvk]
      unfold mapKeyButtonToVirtualKey mapVirtualKeyToKeyButton KeyButtonOffset
      omega
    have hcm : mapModifiersFromOSX nm = mask := by
      rw [← hnm]
      exact mapModifiers_roundtrip mask (hmask ▸ hm64)
    simp only [mapKeyFromEvent, lookupEntry, hbtn, hcm]
    cases hf2 : km.find?
        (fun x => x.button == e.button && x.mask == mask &&
          x.group == group) with
    | none =>
      exfalso
      have hne := List.find?_eq_none.mp hf2 e hme
      simp [hmask, hgroup] at hne
    | some e2 =>
      have hpe2 := List.find?_some hf2
      have hme2 := List.mem_of_find?_eq_some hf2
      simp only [Bool.and_eq_true, beq_iff_eq] at hpe2
      obtain ⟨⟨hb2, hm2⟩, hg2⟩ := hpe2
      have hkey : entryKey e2 = entryKey e := by
        simp [entryKey, hb2, hm2, hg2, hmask, hgroup]
      have he2e : e2 = e := List.inj_on_of_nodup_map hw.1 hme2 hme hkey
      subst he2e
      simp [hids]

/-- C1: every canonical key-map entry whose KeyID sequence is a
singleton round-trips: the reverse lookup of its KeyID and mask succeeds
with a native pair whose forward mapping under the same group yields the
same single KeyID. -/
theorem round_trip_singleton (km : List KeyMapEntry)
    (hw : keyMapWellFormed km) (e : KeyMapEntry) (he : e ∈ km)
    (key : Nat) (hids : e.ids = [key]) :
    ∃ vk nm, mapSynergyHotKeyToMac km e.group key e.mask = some (vk, nm) ∧
      (mapKeyFromEvent km e.group vk nm).1 = [key] := by
  cases hf : km.find?
      (fun x => x.ids == [key] && x.mask == e.mask &&
        x.group == e.group) with
  | none =>
    exfalso
    have hne := List.find?_eq_none.mp hf e he
    simp [hids] at hne
  | some e2 =>
    refine ⟨mapKeyButtonToVirtualKey e2.button, mapModifiersToCarbon e.mask,
      ?_, ?_⟩
    · simp [mapSynergyHotKeyToMac, hf]
    · exact hotkey_some_forward km hw e.group key e.mask _ _
        (by simp [mapSynergyHotKeyToMac, hf])

/-- Witness for C1 on the sample key map, at the entry producing A under
shift in group 0. -/
theorem round_trip_singleton_witness :
    ∃ vk nm, mapSynergyHotKeyToMac sampleKeyMap 0 65 1 = some (vk, nm) ∧
      (mapKeyFromEvent sampleKeyMap 0 vk nm).1 = [65] :=
  round_trip_singleton sampleKeyMap (by decide) ⟨19, 1, 0, [65]⟩
    (by decide) 65 rfl

/-- C9: reverse lookup fails exactly when no entry of the canonical map
produces the requested (KeyID, mask) pair in the group — a normal
negative outcome of the pure lookup — and a successful lookup yields a
native pair that forward-maps to the requested KeyID. -/
theorem hotkey_not_found_semantics (km : List KeyMapEntry)
    (group key mask : Nat) :
    (mapSynergyHotKeyToMac km group key mask = none ↔
      ∀ e ∈ km, ¬(e.ids = [key] ∧ e.mask = mask ∧ e.group = group)) ∧
    (keyMapWellFormed km → ∀ vk nm,
      mapSynergyHotKeyToMac km group key mask = some (vk, nm) →
      (mapKeyFromEvent km group vk nm).1 = [key]) := by
  constructor
  · have hiff : mapSynergyHotKeyToMac km group key mask = none ↔
        km.find? (fun e => e.ids == [key] && e.mask == mask &&
          e.group == group) = none := by
      unfold mapSynergyHotKeyToMac
      cases km.find? (fun e => e.ids == [key] && e.mask == mask &&
          e.group == group) with
      | none => simp
      | some e => simp
    rw [hiff, List.find?_eq_none]
    simp [and_assoc]
  · intro hw vk nm h
    exact hotkey_some_forward km hw group key mask vk nm h

/-- Witness for C9: on the sample key map, KeyID 66 is not producible
(lookup reports not found), while the successful lookup of (65, shift)
forward-maps to 65. -/
theorem hotkey_not_found_semantics_witness :
    mapSynergyHotKeyToMac sampleKeyMap 0 66 1 = none ∧
    (mapKeyFromEvent sampleKeyMap 0 18 512).1 = [65] :=
  ⟨(hotkey_not_found_semantics sampleKeyMap 0 66 1).1.mpr (by decide),
   (hotkey_not_found_semantics sampleKeyMap 0 65 1).2 (by decide) 18 512
     (by decide)⟩

/-- C10: mapKeyFromEvent uses button 0 as the unmapped sentinel: on a
well-formed map it returns 0 exactly when no entry maps the offset
button under the event's canonical mask and group to a non-empty KeyID
sequence, and any successful return equals the offset native code, which
is at least 1. -/
theorem map_key_from_event_sentinel (km : List KeyMapEntry)
    (group vk nmask : Nat) (hw : keyMapWellFormed km) :
    ((mapKeyFromEvent km group vk nmask).2.2 = 0 ↔
      ¬∃ e ∈ km, e.button = mapVirtualKeyToKeyButton vk ∧
        e.mask = mapModifiersFromOSX nmask ∧ e.group = group ∧
        e.ids ≠ []) ∧
    ((mapKeyFromEvent km group vk nmask).2.2 ≠ 0 →
      (mapKeyFromEvent km group vk nmask).2.2 = mapVirtualKeyToKeyButton vk ∧
      1 ≤ (mapKeyFromEvent km group vk nmask).2.2) := by
  simp only [mapKeyFromEvent, lookupEntry]
  cases hf : km.find?
      (fun e => e.button == mapVirtualKeyToKeyButton vk &&
        e.mask == mapModifiersFromOSX nmask && e.group == group) with
  | none =>
    constructor
    · simp only [true_iff]
      rintro ⟨e, he, hb, hm, hg, hne⟩
      have hp := List.find?_eq_none.mp hf e he
      simp [hb, hm, hg] at hp
    · intro h
      exact absurd rfl h
  | some e =>
    have hpe := List.find?_some hf
    have hme := List.mem_of_find?_eq_some hf
    simp only [Bool.and_eq_true, beq_iff_eq] at hpe
    obtain ⟨⟨hb, hm⟩, hg⟩ := hpe
    by_cases hemp : e.ids.isEmpty
    · simp only [hemp, if_true]
      constructor
      · simp only [true_iff]
        rintro ⟨e2, he2, hb2, hm2, hg2, hne2⟩
        have hkey : entryKey e2 = entryKey e := by
          simp [entryKey, hb2, hm2, hg2, hb, hm, hg]
        have : e2 = e := List.inj_on_of_nodup_map hw.1 he2 hme hkey
        subst this
        exact hne2 (List.isEmpty_iff.mp hemp)
      · intro h
        exact absurd rfl h
    · simp only [hemp, if_false, Bool.false_eq_true]
      constructor
      · constructor
        · intro h0
          exact absurd h0 (by simp [mapVirtualKeyToKeyButton, KeyButtonOffset])
        · intro hno
          exact absurd ⟨e, hme, hb, hm, hg,
            fun hnil => hemp (by rw [hnil]; rfl)⟩ hno
      · intro _
        exact ⟨by simp, by simp [mapVirtualKeyToKeyButton, KeyButtonOffset]⟩

/-- Witness for C10: on the sample key map, native key 18 under native
shift maps to button 19 = 18 + 1. -/
theorem map_key_from_event_sentinel_witness :
    (mapKeyFromEvent sampleKeyMap 0 18 512).2.2 =
      mapVirtualKeyToKeyButton 18 ∧
    1 ≤ (mapKeyFromEvent sampleKeyMap 0 18 512).2.2 :=
  (map_key_from_event_sentinel sampleKeyMap 0 18 512 (by decide)).2
    (by decide)

end OSXKeyState
